import Mathlib

/-!
Verification development for the agentic-marketer workflow orchestration core.

The definitions below are a shallow embedding of the TypeScript sources:

* `src/shared/workflow-types.ts` — the data model (`WorkflowPhase`,
  `PendingInput`, `WorkflowState`, `createInitialState`, `addMessage`);
* `src/main/orchestration/pipeline/orchestrator.ts` — the pipeline
  orchestrator (`startWorkflow`, `handleFollowUp`, `handleUserResponse`,
  `runNextPhase`);
* the six phase handlers (`runPlannerPhase`, `runResearchPhase`,
  `runPositioningPhase`, `runDraftPhase`, `runCriticPhase`, `runImagePhase`);
* `src/main/orchestration/single-agent/orchestrator.ts` — `getState` and
  `isWorkflowComplete` of the single-agent strategy;
* `src/main/storage/runs.ts` — `getRun` / `updateRun` of the run store.

Each agent-session invocation is a long-latency external call whose result is
nondeterministic; it is modelled by an explicit outcome value (an "oracle")
passed to the phase handler.  Message ids and timestamps come from
`Date.now()` in the source; they are likewise threaded in as explicit
`MsgMeta` values.  JavaScript truthiness on optional strings / booleans is
modelled explicitly by `strTruthy` / `optTruthy` / `jsOrStr`.

Side effects that no claim touches (streaming `AGENT_EVENT` deltas, the
run-storage sync performed by `syncToRunStorage`, non-image `PANEL_UPDATE`
messages) are intentionally left out of the orchestrator loop; the
image-panel `PANEL_UPDATE` messages, the workflow events emitted through
`emitEvent`, and the `WORKFLOW_PENDING_INPUT` signals emitted through
`emitPendingInput` are tracked explicitly because the claims quantify over
them.
-/

namespace AgenticMarketer

/-- The `WorkflowPhase` union from `shared/workflow-types.ts`. -/
inductive Phase where
  | idle
  | planner
  | plannerWaiting
  | research
  | researchWaiting
  | positioning
  | draft
  | critic
  | criticWaiting
  | image
  | complete
  | error
deriving DecidableEq, Repr

/-- `phase.endsWith('_waiting')` in the source: exactly the three waiting
phases of the union carry the `_waiting` suffix. -/
def Phase.isWaiting : Phase → Bool
  | .plannerWaiting => true
  | .researchWaiting => true
  | .criticWaiting => true
  | _ => false

/-- The `AgentId` union from `shared/types.ts`. -/
inductive AgentId where
  | conductor
  | planner
  | research
  | positioning
  | draft
  | critic
  | image
deriving DecidableEq, Repr

/-- The `role` union of `Message` in `shared/types.ts`. -/
inductive Role where
  | user
  | agent
deriving DecidableEq, Repr

/-- `Message` from `shared/types.ts` (the `isStreaming` / `toolCalls`
extras are never set by the orchestration layer and are omitted). -/
structure Message where
  id : String
  role : Role
  content : String
  agentId : Option AgentId
  timestamp : String
deriving DecidableEq, Repr

/-- `ClarifyingQuestion` from `shared/workflow-types.ts`. -/
structure ClarifyingQuestion where
  id : String
  question : String
  options : Option (List String)
deriving DecidableEq, Repr

/-- `ResearchFinding` from `shared/workflow-types.ts`. -/
structure ResearchFinding where
  id : String
  title : String
  summary : String
  source : Option String
  url : Option String
deriving DecidableEq, Repr

/-- The `category` union of `ImprovementSuggestion` (the last variant is
the source's `'structure'` string). -/
inductive ImprovementCategory where
  | hook
  | body
  | credibility
  | cta
  | tone
  | structureC
deriving DecidableEq, Repr

/-- The `impact` union of `ImprovementSuggestion`. -/
inductive ImpactLevel where
  | high
  | medium
  | low
deriving DecidableEq, Repr

/-- `ImprovementSuggestion` from `shared/workflow-types.ts`. -/
structure ImprovementSuggestion where
  id : String
  category : ImprovementCategory
  description : String
  currentText : Option String
  suggestedText : Option String
  impact : ImpactLevel
deriving DecidableEq, Repr

/-- `ContentPlan` from `shared/workflow-types.ts`. -/
structure ContentPlan where
  topic : String
  angle : String
  targetAudience : String
  keyPoints : List String
  tone : String
  includeStats : Bool
  includeStory : Bool
deriving DecidableEq, Repr

/-- `Source` from `shared/types.ts`. -/
structure Source where
  id : String
  url : String
  title : String
  content : String
  addedAt : String
deriving DecidableEq, Repr

/-- `ResearchData` from `shared/types.ts`. -/
structure ResearchData where
  sources : List Source
  facts : List String
  claims : List String
deriving DecidableEq, Repr

/-- `PositioningData` from `shared/types.ts`. -/
structure PositioningData where
  angle : String
  audience : String
  painPoints : List String
  tone : String
deriving DecidableEq, Repr

/-- The `PendingInput` tagged union from `shared/workflow-types.ts`. -/
inductive PendingInput where
  | questions (questions : List ClarifyingQuestion)
  | findings (findings : List ResearchFinding) (summary : String)
  | improvements (improvements : List ImprovementSuggestion) (currentDraft : String)
deriving DecidableEq, Repr

/-- `WorkflowState` from `shared/workflow-types.ts`.  Optional (`?:`) fields
are `Option`s; `plannerAnswers : Record<string, string>` is an association
list of question/answer pairs. -/
structure WorkflowState where
  runId : String
  phase : Phase
  userRequest : String
  pendingInput : Option PendingInput
  plannerAnswers : Option (List (String × String)) := none
  plan : Option ContentPlan := none
  visualDirection : Option String := none
  skipResearch : Option Bool := none
  skipPositioning : Option Bool := none
  skipCritic : Option Bool := none
  skipImage : Option Bool := none
  draftInstructions : Option String := none
  researchFindings : Option (List ResearchFinding) := none
  selectedFindingIds : Option (List String) := none
  research : Option ResearchData := none
  positioning : Option PositioningData := none
  draft : Option String := none
  improvements : Option (List ImprovementSuggestion) := none
  approvedImprovementIds : Option (List String) := none
  finalDraft : Option String := none
  imageUrl : Option String := none
  imagePrompt : Option String := none
  error : Option String := none
  messages : List Message
deriving DecidableEq, Repr

/-- JavaScript truthiness of an optional boolean field: only an actual
`true` is truthy (`undefined` and `false` are falsy). -/
def optTruthy : Option Bool → Bool
  | some b => b
  | none => false

/-- JavaScript truthiness of an optional string field: `undefined` and the
empty string are falsy. -/
def strTruthy : Option String → Bool
  | some s => s ≠ ""
  | none => false

/-- JavaScript `a || b` on a string `a` with string default `b`. -/
def jsOrStr (a : String) (b : String) : String :=
  if a = "" then b else a

/-- JavaScript `a || b` where `a` is an optional string. -/
def jsOrOptStr (a : Option String) (b : String) : String :=
  match a with
  | some s => jsOrStr s b
  | none => b

/-- JavaScript `a || b` where both sides are optional strings
(`state.finalDraft || state.draft`). -/
def jsOrOpt (a : Option String) (b : Option String) : Option String :=
  match a with
  | some s => if s = "" then b else some s
  | none => b

/-- Fresh message id / timestamp pair; the source derives these from
`Date.now()` and `Math.random()`, so they are supplied by the environment. -/
structure MsgMeta where
  id : String
  timestamp : String
deriving DecidableEq, Repr

/-- `createInitialState` from `shared/workflow-types.ts`. -/
def createInitialState (runId : String) (userRequest : String) : WorkflowState :=
  { runId := runId
    phase := .planner
    userRequest := userRequest
    pendingInput := none
    messages := [] }

/-- `addMessage` from `shared/workflow-types.ts`: appends one message and
returns the new state. -/
def addMessage (state : WorkflowState) (role : Role) (content : String)
    (agentId : Option AgentId) (meta : MsgMeta) : WorkflowState :=
  { state with
    messages := state.messages ++
      [{ id := meta.id, role := role, content := content,
         agentId := agentId, timestamp := meta.timestamp }] }

/-- The extended plan object received by the `submit_plan` tool of the
planner phase (`AgenticPlan` in `planner-phase.ts`). -/
structure AgenticPlan where
  topic : String
  intent : String
  researchTasks : List String
  audienceProfile : String
  visualDirection : String
  skipResearch : Option Bool := none
  skipPositioning : Option Bool := none
  skipCritic : Option Bool := none
  skipImage : Option Bool := none
  draftInstructions : Option String := none
  angle : Option String := none
  context : Option String := none
deriving DecidableEq, Repr

/-- `state.plannerAnswers && Object.keys(state.plannerAnswers).length > 0`. -/
def hasAnswers (state : WorkflowState) : Bool :=
  match state.plannerAnswers with
  | some l => l.length > 0
  | none => false

/-- `t.toLowerCase().includes(sub)` — substring membership, via `splitOn`. -/
def strContains (s sub : String) : Bool :=
  (s.splitOn sub).length > 1

/-- Outcome of the planner phase agent session: either `sendAndWait`
throws (the handler rethrows), or it completes and the `submit_questions` /
`submit_plan` tool invocations left these captured values behind. -/
inductive PlannerOutcome where
  | throwErr (msg : String)
  | finish (questions : List ClarifyingQuestion) (plan : Option AgenticPlan)
deriving DecidableEq, Repr

/-- `runPlannerPhase` from `pipeline/phases/planner-phase.ts`, with the
agent session replaced by its outcome.  A thrown session error is an
`Except.error` (the orchestrator's catch converts it). -/
def runPlannerPhase (o : PlannerOutcome) (meta : MsgMeta)
    (state : WorkflowState) : Except String WorkflowState :=
  match o with
  | .throwErr msg => .error msg
  | .finish questions plan =>
    if questions.length > 0 && !hasAnswers state then
      .ok { state with
              phase := .plannerWaiting
              pendingInput := some (.questions questions)
              messages := (addMessage state .agent
                "I have a few questions to make sure I create the right post for you."
                (some .planner) meta).messages }
    else
      match plan with
      | some p =>
        let contentPlan : ContentPlan :=
          { topic := p.topic
            angle := jsOrOptStr p.angle p.intent
            targetAudience := jsOrStr p.audienceProfile "LinkedIn professionals"
            keyPoints := p.researchTasks
            tone := "professional"
            includeStats := p.researchTasks.any fun t =>
              strContains t.toLower "stat" || strContains t.toLower "data"
            includeStory := p.researchTasks.any fun t =>
              strContains t.toLower "case" || strContains t.toLower "example" }
        let nextPhase : Phase :=
          if optTruthy p.skipResearch || p.researchTasks.length == 0 then
            if optTruthy p.skipPositioning then .draft else .positioning
          else .research
        let statusMessage : String :=
          if optTruthy p.skipResearch || p.researchTasks.length == 0 then
            match p.draftInstructions with
            | some di =>
              if di ≠ "" then "Got it! I will update the draft: " ++ di.take 50 ++ "..."
              else "Got it! Updating the post..."
            | none => "Got it! Updating the post..."
          else
            "Got it! I will research: " ++
              String.intercalate ", " (p.researchTasks.take 2) ++
              (if p.researchTasks.length > 2 then "..." else "")
        .ok { state with
                phase := nextPhase
                plan := some contentPlan
                visualDirection := some p.visualDirection
                skipResearch := p.skipResearch
                skipPositioning := p.skipPositioning
                skipCritic := p.skipCritic
                skipImage := p.skipImage
                draftInstructions := p.draftInstructions
                pendingInput := none
                messages := (addMessage state .agent statusMessage
                  (some .planner) meta).messages }
      | none =>
        .ok { state with
                phase := .error
                error := some "Planner failed to generate questions or plan" }

/-- Outcome of the research phase agent session: either it throws (the
handler rethrows) or it completes with whatever `save_research` stored
(the initial empty `ResearchData` when the tool was never called). -/
inductive ResearchOutcome where
  | throwErr (msg : String)
  | finish (data : ResearchData)
deriving DecidableEq, Repr

/-- `runResearchPhase` from `pipeline/phases/research-phase.ts`. -/
def runResearchPhase (o : ResearchOutcome) (meta : MsgMeta)
    (state : WorkflowState) : Except String WorkflowState :=
  match o with
  | .throwErr msg => .error msg
  | .finish researchData =>
    let factsSummary : String :=
      if researchData.facts.length > 0 then
        "Found " ++ toString researchData.facts.length ++ " key facts."
      else "Research complete."
    .ok { state with
            phase := .positioning
            research := some researchData
            pendingInput := none
            messages := (addMessage state .agent
              (factsSummary ++ " Now crafting the positioning...")
              (some .research) meta).messages }

/-- Outcome of the positioning phase agent session: a throw (rethrown) or
completion with the value captured by `submit_positioning`, if any. -/
inductive PositioningOutcome where
  | throwErr (msg : String)
  | finish (positioning : Option PositioningData)
deriving DecidableEq, Repr

/-- `runPositioningPhase` from `pipeline/phases/positioning-phase.ts`. -/
def runPositioningPhase (o : PositioningOutcome) (meta : MsgMeta)
    (state : WorkflowState) : Except String WorkflowState :=
  if optTruthy state.skipPositioning && state.positioning.isSome then
    .ok { state with
            phase := .draft
            pendingInput := none
            messages := (addMessage state .agent "Keeping current positioning..."
              (some .positioning) meta).messages }
  else
    match o with
    | .throwErr msg => .error msg
    | .finish (some pos) =>
      .ok { state with
              phase := .draft
              positioning := some pos
              messages := (addMessage state .agent
                ("Positioning defined: \"" ++ pos.angle ++ "\". Now writing the draft...")
                (some .positioning) meta).messages }
    | .finish none =>
      let defaultPositioning : PositioningData :=
        { angle := jsOrOptStr (state.plan.map (·.angle))
            ("Share insights on " ++ state.userRequest)
          audience := jsOrOptStr (state.plan.map (·.targetAudience))
            "LinkedIn professionals"
          painPoints :=
            match state.plan with
            | some pl => pl.keyPoints
            | none => ["Need for practical insights"]
          tone := jsOrOptStr (state.plan.map (·.tone))
            "Professional but conversational" }
      .ok { state with
              phase := .draft
              positioning := some defaultPositioning
              messages := (addMessage state .agent
                "Using plan-based positioning. Now writing the draft..."
                (some .positioning) meta).messages }

/-- Outcome of the draft phase agent session: a throw (rethrown) or
completion with the text captured by `submit_draft` (`""` when the tool
was never called). -/
inductive DraftOutcome where
  | throwErr (msg : String)
  | finish (draft : String)
deriving DecidableEq, Repr

/-- `runDraftPhase` from `pipeline/phases/draft-phase.ts`. -/
def runDraftPhase (o : DraftOutcome) (meta : MsgMeta)
    (state : WorkflowState) : Except String WorkflowState :=
  match o with
  | .throwErr msg => .error msg
  | .finish draft =>
    if draft ≠ "" then
      .ok { state with
              phase := .critic
              draft := some draft
              messages := (addMessage state .agent
                ("Draft complete (" ++ toString draft.length ++
                  " characters). Now reviewing for improvements...")
                (some .draft) meta).messages }
    else
      .ok { state with
              phase := .error
              error := some "Failed to generate draft" }

/-- Outcome of the critic phase agent session: a throw (caught — the
handler falls back to the original draft) or completion with the text
captured by `submit_improved_draft` (`""` when the tool was never
called). -/
inductive CriticOutcome where
  | throwErr (msg : String)
  | finish (improved : String)
deriving DecidableEq, Repr

/-- `runCriticPhase` from `pipeline/phases/critic-phase.ts`. -/
def runCriticPhase (o : CriticOutcome) (meta : MsgMeta)
    (state : WorkflowState) : Except String WorkflowState :=
  if optTruthy state.skipCritic then
    .ok { state with
            phase := if optTruthy state.skipImage then .complete else .image
            finalDraft := state.draft
            pendingInput := none
            messages := (addMessage state .agent "Draft is ready!"
              (some .critic) meta).messages }
  else if !strTruthy state.draft then
    .ok { state with phase := .error, error := some "No draft to review" }
  else
    let improvedDraft : String :=
      match o with
      | .throwErr _ => state.draft.getD ""
      | .finish improved => improved
    let finalDraft : String := jsOrStr improvedDraft (state.draft.getD "")
    let nextPhase : Phase := if optTruthy state.skipImage then .complete else .image
    let statusMessage : String :=
      if optTruthy state.skipImage then "✨ Done! Your updated post is ready."
      else "Draft polished! Now creating an image..."
    .ok { state with
            phase := nextPhase
            finalDraft := some finalDraft
            pendingInput := none
            messages := (addMessage state .agent statusMessage
              (some .critic) meta).messages }

/-- The `status` union of `ImageData` in `shared/types.ts`. -/
inductive ImageStatus where
  | pending
  | generating
  | ready
  | errorStatus
deriving DecidableEq, Repr

/-- The payload of a `PANEL_UPDATE` message for the image panel
(`{ url?, altText?, status }`). -/
structure ImagePanelData where
  url : Option String := none
  altText : Option String := none
  status : ImageStatus
deriving DecidableEq, Repr

/-- An image-panel `PANEL_UPDATE` IPC message: run id and payload. -/
structure ImagePanelSend where
  runId : String
  data : ImagePanelData
deriving DecidableEq, Repr

/-- Result of the `fetch` to the OpenAI images endpoint inside
`runImagePhase`: the call throws, responds non-OK, or responds OK with an
optional `b64_json` and `revised_prompt`. -/
inductive ImageFetchResult where
  | throwErr (msg : String)
  | notOk (errText : String)
  | okResp (b64 : Option String) (revisedPrompt : Option String)
deriving DecidableEq, Repr

/-- Environment of one image-phase run: the `OPENAI_API_KEY` value (if
configured) and the fetch result (only consulted when the key exists). -/
structure ImageEnv where
  apiKey : Option String
  fetch : ImageFetchResult
deriving DecidableEq, Repr

/-- `runImagePhase` from `pipeline/phases/image-phase.ts`.  It never
throws: every failure inside the `try` block is caught.  Returns the new
state together with the image-panel `PANEL_UPDATE` messages sent, in
order. -/
def runImagePhase (env : ImageEnv) (meta : MsgMeta)
    (state : WorkflowState) : WorkflowState × List ImagePanelSend :=
  let draft := jsOrOpt state.finalDraft state.draft
  if !strTruthy draft then
    ({ state with
         phase := .complete
         messages := (addMessage state .agent "✨ Done! Your post is ready."
           (some .image) meta).messages }, [])
  else if env.apiKey.isNone then
    ({ state with
         phase := .complete
         messages := (addMessage state .agent
           "✨ Done! Your post is ready. (Add OPENAI_API_KEY for image generation)"
           (some .image) meta).messages }, [])
  else
    let generatingSend : ImagePanelSend :=
      { runId := state.runId, data := { status := .generating } }
    -- the try block: on any failure `imageUrl` stays `""`
    let fetched : String × String :=
      match env.fetch with
      | .throwErr _ => ("", "")
      | .notOk _ => ("", "")
      | .okResp b64 revisedPrompt =>
        match b64 with
        | some b =>
          if b = "" then ("", "")   -- `if (!imageBase64) throw ...`
          else ("data:image/png;base64," ++ b,
                jsOrOptStr revisedPrompt "Generated image")
        | none => ("", "")
    let imageUrl := fetched.1
    let imagePrompt := fetched.2
    let resultSend : ImagePanelSend :=
      if imageUrl ≠ "" then
        { runId := state.runId,
          data := { url := some imageUrl, altText := some imagePrompt,
                    status := .ready } }
      else
        { runId := state.runId, data := { status := .errorStatus } }
    ({ state with
         phase := .complete
         imageUrl := if imageUrl = "" then none else some imageUrl
         imagePrompt := if imagePrompt = "" then none else some imagePrompt
         messages := (addMessage state .agent
           (if imageUrl ≠ "" then
             "✨ All done! Your post and image are ready. Review and publish when ready!"
            else
             "✨ Done! Your post is ready. (Image generation failed - you can add one manually)")
           (some .image) meta).messages }, [generatingSend, resultSend])

/-- The in-memory per-run workflow map
(`private workflows: Map<string, WorkflowState>`), as an association list. -/
abbrev Workflows := List (String × WorkflowState)

/-- `this.workflows.get(runId)`. -/
def wfLookup : Workflows → String → Option WorkflowState
  | [], _ => none
  | (k, v) :: rest, runId => if k = runId then some v else wfLookup rest runId

/-- `this.workflows.set(runId, state)`: replaces the binding when present,
appends it otherwise. -/
def wfInsert : Workflows → String → WorkflowState → Workflows
  | [], runId, v => [(runId, v)]
  | (k, w) :: rest, runId, v =>
    if k = runId then (runId, v) :: rest else (k, w) :: wfInsert rest runId v

/-- `WorkflowEventType` from `shared/workflow-types.ts`. -/
inductive EventType where
  | phaseStart
  | phaseComplete
  | pendingInputEv
  | stateUpdate
  | workflowComplete
  | workflowError
deriving DecidableEq, Repr

/-- `WorkflowEvent`: what `emitEvent` sends to observers. -/
structure WorkflowEvent where
  type : EventType
  runId : String
  phase : Phase
  state : WorkflowState
  timestamp : String
deriving DecidableEq, Repr

/-- The `WORKFLOW_PENDING_INPUT` IPC message sent by `emitPendingInput`
(only when `state.pendingInput` is set). -/
structure PendingSignal where
  runId : String
  phase : Phase
  pendingInput : PendingInput
deriving DecidableEq, Repr

/-- The `type` union of `UserInputResponse`. -/
inductive ResponseType where
  | questions
  | findings
  | improvements
deriving DecidableEq, Repr

/-- `UserInputResponse` from `shared/workflow-types.ts`. -/
structure UserInputResponse where
  type : ResponseType
  answers : Option (List (String × String)) := none
  selectedIds : Option (List String) := none
deriving DecidableEq, Repr

/-- Environment of one `runNextPhase` iteration that executes a phase
handler: the message metadata, the timestamp used for the events emitted
during the iteration, and the outcome of whichever agent session the
current phase would drive. -/
structure StepEnv where
  meta : MsgMeta
  evTime : String
  plannerO : PlannerOutcome
  researchO : ResearchOutcome
  positioningO : PositioningOutcome
  draftO : DraftOutcome
  criticO : CriticOutcome
  imageE : ImageEnv
deriving DecidableEq, Repr

/-- Everything observable from one orchestrator entry point: the updated
workflow map, the `WorkflowEvent`s emitted via `emitEvent`, the
pending-input signals emitted via `emitPendingInput`, the image-panel
updates sent, and the list of states on which a phase handler was actually
invoked (in invocation order). -/
structure RunResult where
  workflows : Workflows
  events : List WorkflowEvent
  signals : List PendingSignal
  panels : List ImagePanelSend
  invoked : List WorkflowState
deriving DecidableEq

/-- A `RunResult` that changes and emits nothing. -/
def RunResult.noop (ws : Workflows) : RunResult :=
  { workflows := ws, events := [], signals := [], panels := [], invoked := [] }

/-- Build the event record `emitEvent` constructs. -/
def mkEvent (type : EventType) (state : WorkflowState) (time : String) :
    WorkflowEvent :=
  { type := type, runId := state.runId, phase := state.phase,
    state := state, timestamp := time }

/-- `emitPendingInput(state)`: sends a signal only when `pendingInput` is
set. -/
def pendingSignals (state : WorkflowState) : List PendingSignal :=
  match state.pendingInput with
  | some pi => [{ runId := state.runId, phase := state.phase, pendingInput := pi }]
  | none => []

/-- One phase-handler dispatch: the `switch (state.phase)` of
`runNextPhase`.  Returns `none` for the phases the switch does not
dispatch on (`complete`, `error` and the `default:` branch), otherwise the
handler's result together with any image-panel sends. -/
def dispatchPhase (env : StepEnv) (state : WorkflowState) :
    Option (Except String (WorkflowState × List ImagePanelSend)) :=
  match state.phase with
  | .planner => some ((runPlannerPhase env.plannerO env.meta state).map (·, []))
  | .research => some ((runResearchPhase env.researchO env.meta state).map (·, []))
  | .positioning =>
    some ((runPositioningPhase env.positioningO env.meta state).map (·, []))
  | .draft => some ((runDraftPhase env.draftO env.meta state).map (·, []))
  | .critic => some ((runCriticPhase env.criticO env.meta state).map (·, []))
  | .image => some (.ok (runImagePhase env.imageE env.meta state))
  | _ => none

/-- `runNextPhase` from `pipeline/orchestrator.ts`.  The env list doubles
as recursion fuel: each iteration that reaches a phase handler consumes
one `StepEnv`; an empty list stops the auto-advance (the real loop always
terminates because phases strictly advance toward `complete`/`error`). -/
def runNextPhase : List StepEnv → Workflows → String → RunResult
  | envs, ws, runId =>
    match wfLookup ws runId with
    | none => RunResult.noop ws
    | some state =>
      if state.pendingInput.isSome then
        -- "If there's pending input, wait for user"
        { RunResult.noop ws with signals := pendingSignals state }
      else if state.phase.isWaiting then
        -- "Still in waiting phase, emitting pending input" — but
        -- `emitPendingInput` sends nothing when `pendingInput` is null
        { RunResult.noop ws with signals := pendingSignals state }
      else
        match envs with
        | [] => RunResult.noop ws
        | env :: rest =>
          let evStart := mkEvent .phaseStart state env.evTime
          if state.phase = .complete then
            { RunResult.noop ws with
                events := [evStart, mkEvent .workflowComplete state env.evTime] }
          else if state.phase = .error then
            { RunResult.noop ws with
                events := [evStart, mkEvent .workflowError state env.evTime] }
          else
            match dispatchPhase env state with
            | none =>
              -- `default:` — unknown phase, return after the start event
              { RunResult.noop ws with events := [evStart] }
            | some (.ok (newState, phasePanels)) =>
              let tail := runNextPhase rest (wfInsert ws runId newState) runId
              { workflows := tail.workflows
                events := evStart :: mkEvent .phaseComplete newState env.evTime ::
                  tail.events
                signals := tail.signals
                panels := phasePanels ++ tail.panels
                invoked := state :: tail.invoked }
            | some (.error msg) =>
              let errorState : WorkflowState :=
                { state with phase := .error, error := some msg }
              { workflows := wfInsert ws runId errorState
                events := [evStart, mkEvent .workflowError errorState env.evTime]
                signals := []
                panels := []
                invoked := [state] }

/-- Environment of one orchestrator entry-point call: metadata for the
user message it may append, the timestamp of the event it emits before
entering the loop, and the per-iteration environments of the loop. -/
structure CallEnv where
  meta : MsgMeta
  evTime : String
  steps : List StepEnv
deriving DecidableEq, Repr

/-- The user `Message` pushed by `startWorkflow` / `handleFollowUp`. -/
def userMessage (meta : MsgMeta) (content : String) : Message :=
  { id := meta.id, role := .user, content := content,
    agentId := none, timestamp := meta.timestamp }

/-- The state transformation `handleFollowUp` applies before re-entering
the machine: back to `planner`, new `userRequest`, cleared `pendingInput`,
user message appended; every other field is spread through unchanged. -/
def followUpReentry (existing : WorkflowState) (userRequest : String)
    (meta : MsgMeta) : WorkflowState :=
  { existing with
      phase := .planner
      userRequest := userRequest
      pendingInput := none
      messages := existing.messages ++ [userMessage meta userRequest] }

/-- `handleFollowUp` from `pipeline/orchestrator.ts`. -/
def handleFollowUp (env : CallEnv) (ws : Workflows)
    (runId userRequest : String) : RunResult :=
  match wfLookup ws runId with
  | none => RunResult.noop ws
  | some existing =>
    let newState := followUpReentry existing userRequest env.meta
    let ws' := wfInsert ws runId newState
    let tail := runNextPhase env.steps ws' runId
    { tail with events := mkEvent .phaseStart newState env.evTime :: tail.events }

/-- `startWorkflow` from `pipeline/orchestrator.ts`.  Note the source
checks `phase === 'complete'` for the follow-up branch and
`phase !== 'complete' && phase !== 'error'` for duplicate suppression, so
an `error`-phase workflow falls through to the fresh-start path. -/
def startWorkflow (env : CallEnv) (ws : Workflows)
    (runId userRequest : String) : RunResult :=
  let fresh : RunResult :=
    let state₀ := createInitialState runId userRequest
    let state := { state₀ with
                     messages := state₀.messages ++ [userMessage env.meta userRequest] }
    let ws' := wfInsert ws runId state
    let tail := runNextPhase env.steps ws' runId
    { tail with events := mkEvent .phaseStart state env.evTime :: tail.events }
  match wfLookup ws runId with
  | some existing =>
    if existing.phase = .complete then
      handleFollowUp env ws runId userRequest
    else if existing.phase ≠ .complete ∧ existing.phase ≠ .error then
      RunResult.noop ws
    else
      fresh
  | none => fresh

/-- The state transformation `handleUserResponse` applies before
re-entering the machine (`switch (response.type)`). -/
def resolveResponse (state : WorkflowState) (response : UserInputResponse) :
    WorkflowState :=
  match response.type with
  | .questions =>
    { state with
        plannerAnswers := some (response.answers.getD [])
        pendingInput := none
        phase := .planner }
  | .findings =>
    { state with
        selectedFindingIds := some (response.selectedIds.getD [])
        pendingInput := none
        phase := .research }
  | .improvements =>
    { state with
        approvedImprovementIds := some (response.selectedIds.getD [])
        pendingInput := none
        phase := .critic }

/-- `handleUserResponse` from `pipeline/orchestrator.ts`: logs and does
nothing when there is no workflow or no pending input for the run. -/
def handleUserResponse (env : CallEnv) (ws : Workflows) (runId : String)
    (response : UserInputResponse) : RunResult :=
  match wfLookup ws runId with
  | none => RunResult.noop ws
  | some state =>
    if state.pendingInput.isNone then
      RunResult.noop ws
    else
      let newState := resolveResponse state response
      let ws' := wfInsert ws runId newState
      let tail := runNextPhase env.steps ws' runId
      { tail with
          events := mkEvent .stateUpdate newState env.evTime :: tail.events }

/-- One external call into the pipeline orchestrator. -/
inductive Command where
  | start (env : CallEnv) (runId userRequest : String)
  | followUp (env : CallEnv) (runId userRequest : String)
  | userResponse (env : CallEnv) (runId : String) (response : UserInputResponse)
deriving DecidableEq

/-- Dispatch one command against the workflow map. -/
def applyCommand (ws : Workflows) : Command → RunResult
  | .start env runId userRequest => startWorkflow env ws runId userRequest
  | .followUp env runId userRequest => handleFollowUp env ws runId userRequest
  | .userResponse env runId response => handleUserResponse env ws runId response

/-- Execute a command sequence from the empty map, keeping only the
workflow map. -/
def execCommands : List Command → Workflows
  | [] => []
  | c :: cs => (applyCommand (execCommands cs) c).workflows

/-- All states a phase handler was invoked on, over a command sequence
executed from the empty map. -/
def invokedStates : List Command → List WorkflowState
  | [] => []
  | c :: cs =>
    invokedStates cs ++ (applyCommand (execCommands cs) c).invoked

/-- The private `RunState` bookkeeping record of
`single-agent/orchestrator.ts` (side-channel state updated by the agent's
tools). -/
structure SingleAgentRunState where
  draft : Option String := none
  research : Option (List String) := none
  sources : Option (List (String × String)) := none
  positioning : Option PositioningData := none
deriving DecidableEq, Repr

/-- The `runStates: Map<string, RunState>` of the single-agent
orchestrator, as an association list. -/
def SingleAgentStates := List (String × SingleAgentRunState)

/-- `this.runStates.get(runId)`. -/
def saLookup : SingleAgentStates → String → Option SingleAgentRunState
  | [], _ => none
  | (k, v) :: rest, runId => if k = runId then some v else saLookup rest runId

/-- `SingleAgentOrchestrator.getState`: always returns a minimal state for
compatibility — phase `complete`, empty transcript, the last known draft
when bookkeeping exists for the run. -/
def singleAgentGetState (runStates : SingleAgentStates) (runId : String) :
    WorkflowState :=
  let state := saLookup runStates runId
  { runId := runId
    phase := .complete
    userRequest := ""
    pendingInput := none
    draft := state.bind (·.draft)
    messages := [] }

/-- `SingleAgentOrchestrator.isWorkflowComplete`: always `false` — the
single-agent strategy has no terminal state. -/
def singleAgentIsWorkflowComplete (_runId : String) : Bool :=
  false

/-- `ImageData` from `shared/types.ts`. -/
structure ImageData where
  url : Option String
  altText : String
  status : ImageStatus
deriving DecidableEq, Repr

/-- `DraftData` from `shared/types.ts`. -/
structure DraftData where
  hook : String
  body : String
  cta : String
  fullText : String
  characterCount : Nat
deriving DecidableEq, Repr

/-- The `status` union of `RunState` in `shared/types.ts`. -/
inductive RunStatus where
  | active
  | completed
  | errored
deriving DecidableEq, Repr

/-- The persisted `RunState` record of the run store
(`shared/types.ts`; one JSON file per run id under `storage/runs.ts`). -/
structure RunRecord where
  id : String
  topic : String
  status : RunStatus
  createdAt : String
  updatedAt : String
  messages : List Message
  research : ResearchData
  positioning : Option PositioningData
  draft : Option DraftData
  image : Option ImageData
deriving DecidableEq, Repr

/-- The on-disk run store: one record per file `runId.json`, keyed by run
id. -/
abbrev RunStore := List (String × RunRecord)

/-- `getRun(runId)`: reads `runId.json`, `null` when the file is absent. -/
def getRun : RunStore → String → Option RunRecord
  | [], _ => none
  | (k, v) :: rest, runId => if k = runId then some v else getRun rest runId

/-- `saveRun(run)`: writes the record to the file named after `run.id`,
overwriting any existing file. -/
def saveRun : RunStore → RunRecord → RunStore
  | [], run => [(run.id, run)]
  | (k, v) :: rest, run =>
    if k = run.id then (run.id, run) :: rest else (k, v) :: saveRun rest run

/-- `Partial<RunState>`: the updates object accepted by
`updateRun(runId, updates)`.  A `none` field is an absent key. -/
structure RunUpdates where
  id : Option String := none
  topic : Option String := none
  status : Option RunStatus := none
  createdAt : Option String := none
  updatedAt : Option String := none
  messages : Option (List Message) := none
  research : Option ResearchData := none
  positioning : Option (Option PositioningData) := none
  draft : Option (Option DraftData) := none
  image : Option (Option ImageData) := none
deriving DecidableEq, Repr

/-- The object spread `{ ...existingRun, ...updates, updatedAt: now }`. -/
def applyUpdates (existing : RunRecord) (u : RunUpdates) (now : String) :
    RunRecord :=
  { id := u.id.getD existing.id
    topic := u.topic.getD existing.topic
    status := u.status.getD existing.status
    createdAt := u.createdAt.getD existing.createdAt
    updatedAt := now
    messages := u.messages.getD existing.messages
    research := u.research.getD existing.research
    positioning := u.positioning.getD existing.positioning
    draft := u.draft.getD existing.draft
    image := u.image.getD existing.image }

/-- The `updateRun(runId, updates)` overload of `storage/runs.ts`
(`typeof runOrId === 'string'`): load the existing record; when it does
not exist, log and return without writing; otherwise merge the updates,
refresh `updatedAt`, and save. -/
def updateRun (store : RunStore) (runId : String) (updates : RunUpdates)
    (now : String) : RunStore :=
  match getRun store runId with
  | none => store
  | some existing => saveRun store (applyUpdates existing updates now)

/-- `true` exactly on the fetch results the image phase treats as a
generation failure inside its `try` block: a thrown fetch, a non-OK
response, or an OK response without usable `b64_json` data. -/
def ImageFetchResult.isFailure : ImageFetchResult → Bool
  | .throwErr _ => true
  | .notOk _ => true
  | .okResp b64 _ => !strTruthy b64

/-- Key/record agreement of the run store: `saveRun` files every record
under its own `id`, so a store produced by `createRun`/`saveRun` satisfies
this. -/
def RunStore.wellKeyed (store : RunStore) : Prop :=
  ∀ k r, getRun store k = some r → r.id = k

/-! ### Concrete fixtures used by witnesses and counterexamples -/

/-- Fixed message metadata for concrete executions. -/
def metaA : MsgMeta := { id := "msg-1", timestamp := "2026-01-01T00:00:00Z" }

/-- Second fixed message metadata. -/
def metaB : MsgMeta := { id := "msg-2", timestamp := "2026-01-01T00:01:00Z" }

/-- A step environment whose planner session asks one clarifying question
and submits no plan. -/
def stepPlannerQuestions : StepEnv :=
  { meta := metaB
    evTime := "t1"
    plannerO := .finish [{ id := "q1", question := "Which audience?", options := none }] none
    researchO := .finish { sources := [], facts := [], claims := [] }
    positioningO := .finish none
    draftO := .finish ""
    criticO := .finish ""
    imageE := { apiKey := none, fetch := .okResp none none } }

/-- A call environment with a single planner-questions step. -/
def callEnvQ : CallEnv := { meta := metaA, evTime := "t0", steps := [stepPlannerQuestions] }

/-- A call environment whose loop runs no phase (empty env list). -/
def callEnvEmpty : CallEnv := { meta := metaA, evTime := "t0", steps := [] }

/-- Some accumulated research for fixtures. -/
def researchFixture : ResearchData :=
  { sources := [], facts := ["fact one"], claims := [] }

/-- A workflow stuck in phase `error`, carrying accumulated research, a
draft and one transcript message. -/
def errorState0 : WorkflowState :=
  { runId := "r1"
    phase := .error
    userRequest := "orig"
    pendingInput := none
    research := some researchFixture
    draft := some "old draft"
    error := some "boom"
    messages := [{ id := "m0", role := .user, content := "orig",
                   agentId := none, timestamp := "t" }] }

/-- A workflow map holding only `errorState0`. -/
def wsError : Workflows := [("r1", errorState0)]

/-- A workflow that has reached `complete` with accumulated state. -/
def completeState0 : WorkflowState :=
  { runId := "r4"
    phase := .complete
    userRequest := "orig"
    pendingInput := none
    research := some researchFixture
    positioning := some { angle := "a", audience := "b", painPoints := [], tone := "t" }
    draft := some "old"
    finalDraft := some "final"
    messages := [{ id := "m0", role := .user, content := "orig",
                   agentId := none, timestamp := "t" }] }

/-- A workflow map holding only `completeState0`. -/
def wsComplete : Workflows := [("r4", completeState0)]

/-- A workflow still in progress (phase `draft`, no pending input). -/
def draftingState0 : WorkflowState :=
  { runId := "r3", phase := .draft, userRequest := "x",
    pendingInput := none, messages := [] }

/-- A workflow map holding only `draftingState0`. -/
def wsDrafting : Workflows := [("r3", draftingState0)]

/-- A workflow about to enter the image phase with a non-empty draft. -/
def imageState0 : WorkflowState :=
  { runId := "r2", phase := .image, userRequest := "req",
    pendingInput := none, draft := some "post text", messages := [] }

/-- An image environment with no `OPENAI_API_KEY` configured. -/
def imageEnvNoKey : ImageEnv := { apiKey := none, fetch := .okResp none none }

/-- A command sequence: one fresh `startWorkflow` whose planner asks a
question. -/
def cmdsQuestions : List Command := [Command.start callEnvQ "r" "hi"]

/-- The seeded initial state that `startWorkflow` stores for `cmdsQuestions`
before running the planner. -/
def seedState0 : WorkflowState :=
  { runId := "r", phase := .planner, userRequest := "hi",
    pendingInput := none, messages := [userMessage metaA "hi"] }

/-- A persisted run record for run-store fixtures. -/
def runRecord0 : RunRecord :=
  { id := "r5"
    topic := "remote work"
    status := .active
    createdAt := "t0"
    updatedAt := "t0"
    messages := []
    research := { sources := [], facts := [], claims := [] }
    positioning := none
    draft := none
    image := none }

/-- A run store holding only `runRecord0`. -/
def runStore0 : RunStore := [("r5", runRecord0)]

/-- The per-state half of the C1 invariant: `pendingInput` is set exactly
when the phase is one of the `*_waiting` phases. -/
def stateInv (st : WorkflowState) : Prop :=
  st.pendingInput.isSome = st.phase.isWaiting

/-- The C1 invariant lifted to the whole workflow map. -/
def WsInv (ws : Workflows) : Prop :=
  ∀ k st, wfLookup ws k = some st → stateInv st

/-! ### Helper lemmas -/

theorem wfLookup_wfInsert_self (ws : Workflows) (runId : String)
    (v : WorkflowState) : wfLookup (wfInsert ws runId v) runId = some v := by
  induction ws with
  | nil => simp [wfInsert, wfLookup]
  | cons p rest ih =>
    obtain ⟨k, w⟩ := p
    by_cases hk : k = runId
    · simp [wfInsert, hk, wfLookup]
    · simp [wfInsert, hk, wfLookup, ih]

theorem wfLookup_wfInsert_ne (ws : Workflows) (runId k : String)
    (v : WorkflowState) (h : k ≠ runId) :
    wfLookup (wfInsert ws runId v) k = wfLookup ws k := by
  induction ws with
  | nil => simp [wfInsert, wfLookup, Ne.symm h]
  | cons p rest ih =>
    obtain ⟨a, w⟩ := p
    by_cases ha : a = runId
    · subst ha
      simp [wfInsert, wfLookup, Ne.symm h]
    · by_cases hak : a = k
      · simp [wfInsert, ha, wfLookup, hak, h]
      · simp [wfInsert, ha, wfLookup, hak, ih]

theorem getRun_saveRun (store : RunStore) (r : RunRecord) (k : String) :
    getRun (saveRun store r) k = if k = r.id then some r else getRun store k := by
  induction store with
  | nil =>
    by_cases h : k = r.id
    · subst h
      simp [saveRun, getRun]
    · simp [saveRun, getRun, h, Ne.symm h]
  | cons p rest ih =>
    obtain ⟨a, v⟩ := p
    by_cases ha : a = r.id
    · by_cases hk : r.id = k
      · subst hk
        simp [saveRun, getRun, ha]
      · simp [saveRun, getRun, ha, hk, Ne.symm hk]
    · by_cases hak : a = k
      · subst hak
        simp [saveRun, getRun, ha, Ne.symm ha]
      · simp [saveRun, getRun, ha, hak, ih]

theorem runStore0_wellKeyed : RunStore.wellKeyed runStore0 := by
  intro k r h
  simp only [runStore0, getRun] at h
  by_cases hk : "r5" = k
  · rw [if_pos hk] at h
    injection h with h2
    subst h2
    simpa [runRecord0] using hk
  · rw [if_neg hk] at h
    exact absurd h (by simp)

/-! ### Claim theorems -/

/-- C9: for every runId — including runs that were never started — the
single-agent orchestrator's `getState` returns a defined `WorkflowState`
whose phase is `complete` and whose messages list is empty, while
`isWorkflowComplete` returns `false` for that same runId. -/
theorem singleAgent_getState_shape (runStates : SingleAgentStates)
    (runId : String) :
    (singleAgentGetState runStates runId).phase = Phase.complete ∧
    (singleAgentGetState runStates runId).messages = [] ∧
    singleAgentIsWorkflowComplete runId = false :=
  ⟨rfl, rfl, rfl⟩

/-- C10: updating a runId with no persisted record is a silent no-op — it
creates no run file and leaves the store unchanged; when a record exists
(and, as at every call site, the updates do not override `id`), the
update overwrites exactly that record, refreshing its `updatedAt`, and
touches no other key. -/
theorem updateRun_missing_run_noop (store : RunStore) (runId : String)
    (updates : RunUpdates) (now : String) :
    (getRun store runId = none → updateRun store runId updates now = store) ∧
    (∀ existing, getRun store runId = some existing →
      RunStore.wellKeyed store → updates.id = none →
      getRun (updateRun store runId updates now) runId =
        some (applyUpdates existing updates now) ∧
      (applyUpdates existing updates now).updatedAt = now ∧
      ∀ k, k ≠ runId →
        getRun (updateRun store runId updates now) k = getRun store k) := by
  constructor
  · intro h
    unfold updateRun
    rw [h]
  · intro existing h hwk hid
    have hex : existing.id = runId := hwk runId existing h
    have hmergedId : (applyUpdates existing updates now).id = runId := by
      simp [applyUpdates, hid, hex]
    have hupd : updateRun store runId updates now =
        saveRun store (applyUpdates existing updates now) := by
      unfold updateRun
      rw [h]
    refine ⟨?_, rfl, ?_⟩
    · rw [hupd, getRun_saveRun, hmergedId, if_pos rfl]
    · intro k hk
      rw [hupd, getRun_saveRun, hmergedId, if_neg hk]

/-- Witness for C10 at a concrete store: updating an absent run changes
nothing, and updating the present run overwrites it with a fresh
`updatedAt`. -/
theorem updateRun_missing_run_noop_witness :
    updateRun runStore0 "ghost" { research := some researchFixture } "t9" =
      runStore0 ∧
    getRun (updateRun runStore0 "r5" { research := some researchFixture } "t9")
        "r5" =
      some (applyUpdates runRecord0 { research := some researchFixture } "t9") := by
  constructor
  · exact (updateRun_missing_run_noop runStore0 "ghost"
      { research := some researchFixture } "t9").1 (by decide)
  · exact ((updateRun_missing_run_noop runStore0 "r5"
      { research := some researchFixture } "t9").2 runRecord0 (by decide)
      runStore0_wellKeyed rfl).1

/-- C5: when the critic agent session throws (or times out) on a state
with a non-empty draft (and the critic is not skipped, so the session is
actually driven), the handler falls back: `finalDraft` equals the
pre-critique draft exactly, and the phase advances to `image` (`complete`
when `skipImage` is set), never to `error`. -/
theorem critic_fallback_preserves_draft (state : WorkflowState)
    (d msg : String) (meta : MsgMeta) (hd : state.draft = some d)
    (hne : d ≠ "") (hskip : optTruthy state.skipCritic = false) :
    (runCriticPhase (.throwErr msg) meta state).toOption.map
        WorkflowState.finalDraft = some (some d) ∧
    (runCriticPhase (.throwErr msg) meta state).toOption.map
        WorkflowState.phase =
      some (if optTruthy state.skipImage then Phase.complete
            else Phase.image) ∧
    (runCriticPhase (.throwErr msg) meta state).toOption.map
        WorkflowState.phase ≠ some Phase.error := by
  have hs : strTruthy state.draft = true := by simp [strTruthy, hd, hne]
  have hrun : runCriticPhase (.throwErr msg) meta state =
      .ok { state with
              phase := if optTruthy state.skipImage then Phase.complete
                       else Phase.image
              finalDraft := some d
              pendingInput := none
              messages := (addMessage state .agent
                (if optTruthy state.skipImage then
                  "✨ Done! Your updated post is ready."
                 else "Draft polished! Now creating an image...")
                (some .critic) meta).messages } := by
    unfold runCriticPhase
    rw [hskip, hs]
    simp [hd, jsOrStr, hne]
  rw [hrun]
  refine ⟨rfl, rfl, ?_⟩
  by_cases hi : optTruthy state.skipImage = true <;>
    simp [Except.toOption, hi]

/-- A state sitting at the critic phase with a non-empty draft. -/
theorem critic_fallback_preserves_draft_witness :
    (runCriticPhase (.throwErr "timeout") metaA
        { runId := "rc", phase := .critic, userRequest := "x",
          pendingInput := none, draft := some "the draft",
          messages := [] }).toOption.map WorkflowState.finalDraft =
      some (some "the draft") := by
  exact (critic_fallback_preserves_draft
    { runId := "rc", phase := .critic, userRequest := "x",
      pendingInput := none, draft := some "the draft", messages := [] }
    "the draft" "timeout" metaA rfl (by decide) rfl).1

/-- C7: when a planner run produces a plan (no unanswered clarifying
questions pre-empt it), the next phase is `positioning` when the plan
declares zero research tasks or `skipResearch` (`draft` when
`skipPositioning` is also set), and `research` otherwise. -/
theorem planner_skip_decision (state : WorkflowState)
    (qs : List ClarifyingQuestion) (p : AgenticPlan) (meta : MsgMeta)
    (h : qs = [] ∨ hasAnswers state = true) :
    (runPlannerPhase (.finish qs (some p)) meta state).toOption.map
        WorkflowState.phase =
      some (if p.researchTasks = [] ∨ optTruthy p.skipResearch = true then
              (if optTruthy p.skipPositioning = true then Phase.draft
               else Phase.positioning)
            else Phase.research) := by
  have hguard : (decide (qs.length > 0) && !hasAnswers state) = false := by
    rcases h with h | h
    · subst h
      simp
    · simp [h]
  simp only [runPlannerPhase, hguard, Bool.false_eq_true, if_false,
    Except.toOption, Option.map]
  by_cases hr : p.researchTasks = []
  · have hlen : (p.researchTasks.length == 0) = true := by
      simp [hr]
    by_cases hp : optTruthy p.skipPositioning = true <;>
      simp [hr, hp, hlen]
  · have hlen : (p.researchTasks.length == 0) = false := by
      simp [List.length_eq_zero, hr]
    by_cases hs : optTruthy p.skipResearch = true
    · by_cases hp : optTruthy p.skipPositioning = true <;>
        simp [hr, hs, hp, hlen]
    · simp [hr, hs, hlen]

/-- A plan with no research tasks and no skip flags routes to
`positioning`. -/
theorem planner_skip_decision_witness :
    (runPlannerPhase
        (.finish []
          (some { topic := "t", intent := "i", researchTasks := [],
                  audienceProfile := "a", visualDirection := "v" }))
        metaA seedState0).toOption.map WorkflowState.phase =
      some Phase.positioning := by
  have := planner_skip_decision seedState0 []
    { topic := "t", intent := "i", researchTasks := [],
      audienceProfile := "a", visualDirection := "v" } metaA (Or.inl rfl)
  simpa using this

/-- C8: `handleFollowUp` leaves the accumulated `research`, `positioning`,
`draft` and `finalDraft` fields unchanged; its re-entry transformation only
resets the phase to `planner`, overwrites `userRequest`, clears
`pendingInput` and appends the new user message to the transcript.  (Run
with an empty step list, so no phase handler has run yet and the stored
state is exactly the re-entry state.) -/
theorem handleFollowUp_preserves_accumulated (env : CallEnv) (ws : Workflows)
    (runId userRequest : String) (existing : WorkflowState)
    (h : wfLookup ws runId = some existing) (hsteps : env.steps = []) :
    wfLookup (handleFollowUp env ws runId userRequest).workflows runId =
      some (followUpReentry existing userRequest env.meta) ∧
    (followUpReentry existing userRequest env.meta).research =
      existing.research ∧
    (followUpReentry existing userRequest env.meta).positioning =
      existing.positioning ∧
    (followUpReentry existing userRequest env.meta).draft = existing.draft ∧
    (followUpReentry existing userRequest env.meta).finalDraft =
      existing.finalDraft ∧
    (followUpReentry existing userRequest env.meta).phase = Phase.planner ∧
    (followUpReentry existing userRequest env.meta).userRequest =
      userRequest ∧
    (followUpReentry existing userRequest env.meta).pendingInput = none ∧
    (followUpReentry existing userRequest env.meta).messages =
      existing.messages ++ [userMessage env.meta userRequest] := by
  refine ⟨?_, rfl, rfl, rfl, rfl, rfl, rfl, rfl, rfl⟩
  unfold handleFollowUp
  rw [h, hsteps]
  simp [runNextPhase, wfLookup_wfInsert_self, followUpReentry,
    Phase.isWaiting, RunResult.noop]

/-- Witness for C8 on the concrete completed workflow `completeState0`. -/
theorem handleFollowUp_preserves_accumulated_witness :
    wfLookup (handleFollowUp callEnvEmpty wsComplete "r4" "make it shorter").workflows
        "r4" =
      some (followUpReentry completeState0 "make it shorter" callEnvEmpty.meta) ∧
    (followUpReentry completeState0 "make it shorter" callEnvEmpty.meta).research =
      completeState0.research :=
  ⟨(handleFollowUp_preserves_accumulated callEnvEmpty wsComplete "r4"
      "make it shorter" completeState0 (by decide) rfl).1,
   (handleFollowUp_preserves_accumulated callEnvEmpty wsComplete "r4"
      "make it shorter" completeState0 (by decide) rfl).2.1⟩

/-- C3: a second `startWorkflow` against a run that is still in progress
(phase neither `complete` nor `error`, including every waiting phase) is a
no-op: the workflow map is returned unchanged and no event, pending-input
signal, panel update or phase-handler invocation is produced. -/
theorem startWorkflow_in_progress_noop (env : CallEnv) (ws : Workflows)
    (runId userRequest : String) (existing : WorkflowState)
    (h : wfLookup ws runId = some existing)
    (hc : existing.phase ≠ Phase.complete)
    (he : existing.phase ≠ Phase.error) :
    startWorkflow env ws runId userRequest = RunResult.noop ws := by
  unfold startWorkflow
  rw [h]
  simp [hc, he]

/-- Witness for C3 on a concrete in-progress workflow. -/
theorem startWorkflow_in_progress_noop_witness :
    startWorkflow callEnvQ wsDrafting "r3" "again" =
      RunResult.noop wsDrafting :=
  startWorkflow_in_progress_noop callEnvQ wsDrafting "r3" "again"
    draftingState0 (by decide) (by decide) (by decide)

/-- C4: `handleUserResponse` does nothing when there is no workflow for
the run or its `pendingInput` is null; and because resolving a pending
input nulls `pendingInput`, a second call after a resolution (whenever the
stored state again has no pending input) is a no-op — each response is
consumed exactly once. -/
theorem handleUserResponse_consume_once (env envB : CallEnv) (ws : Workflows)
    (runId : String) (resp respB : UserInputResponse) :
    (wfLookup ws runId = none →
      handleUserResponse env ws runId resp = RunResult.noop ws) ∧
    (∀ state, wfLookup ws runId = some state → state.pendingInput = none →
      handleUserResponse env ws runId resp = RunResult.noop ws) ∧
    (∀ stateA,
      wfLookup (handleUserResponse env ws runId resp).workflows runId =
        some stateA →
      stateA.pendingInput = none →
      handleUserResponse envB (handleUserResponse env ws runId resp).workflows
          runId respB =
        RunResult.noop (handleUserResponse env ws runId resp).workflows) := by
  refine ⟨?_, ?_, ?_⟩
  · intro h
    unfold handleUserResponse
    rw [h]
  · intro state h hpi
    unfold handleUserResponse
    rw [h]
    simp [hpi]
  · intro stateA hA hpiA
    generalize hW : (handleUserResponse env ws runId resp).workflows = W at hA ⊢
    unfold handleUserResponse
    rw [hA]
    simp [hpiA]

/-- Witness for C4: responding on a run with no pending input changes
nothing. -/
theorem handleUserResponse_consume_once_witness :
    handleUserResponse callEnvQ wsDrafting "r3"
        { type := .questions, answers := some [("q1", "devs")] } =
      RunResult.noop wsDrafting :=
  (handleUserResponse_consume_once callEnvQ callEnvQ wsDrafting "r3"
      { type := .questions, answers := some [("q1", "devs")] }
      { type := .questions, answers := some [("q1", "devs")] }).2.1
    draftingState0 (by decide) (by decide)

/-- C2 counterexample: against a workflow in the terminal phase `error`
(which the claim includes), `startWorkflow` does NOT behave as a
follow-up: it restarts fresh, so the stored state's accumulated `research`
and `draft` are gone and the transcript holds only the new seed message
(an appended follow-up would have preserved `research = some
researchFixture`, `draft = some "old draft"` and produced 2 messages). -/
theorem startWorkflow_error_phase_discards_cex :
    (wfLookup (startWorkflow callEnvEmpty wsError "r1" "again").workflows
        "r1").map WorkflowState.research = some none ∧
    (wfLookup (startWorkflow callEnvEmpty wsError "r1" "again").workflows
        "r1").map WorkflowState.draft = some none ∧
    (wfLookup (startWorkflow callEnvEmpty wsError "r1" "again").workflows
        "r1").map (fun st => st.messages.length) = some 1 := by
  decide

/-- C2 amended: only a workflow whose phase is `complete` is reinterpreted
as a follow-up — `startWorkflow` then delegates to `handleFollowUp`, which
appends the new instruction as a user message, resets the phase to
`planner`, clears `pendingInput`, and preserves the accumulated state; a
workflow in phase `error` is instead restarted from scratch. -/
theorem startWorkflow_complete_follow_up (env : CallEnv) (ws : Workflows)
    (runId userRequest : String) (existing : WorkflowState)
    (h : wfLookup ws runId = some existing)
    (hc : existing.phase = Phase.complete) :
    startWorkflow env ws runId userRequest =
      handleFollowUp env ws runId userRequest ∧
    (env.steps = [] →
      wfLookup (startWorkflow env ws runId userRequest).workflows runId =
        some (followUpReentry existing userRequest env.meta)) ∧
    (followUpReentry existing userRequest env.meta).phase = Phase.planner ∧
    (followUpReentry existing userRequest env.meta).pendingInput = none ∧
    (followUpReentry existing userRequest env.meta).messages =
      existing.messages ++ [userMessage env.meta userRequest] ∧
    (followUpReentry existing userRequest env.meta).research =
      existing.research ∧
    (followUpReentry existing userRequest env.meta).draft = existing.draft ∧
    (followUpReentry existing userRequest env.meta).finalDraft =
      existing.finalDraft := by
  have h1 : startWorkflow env ws runId userRequest =
      handleFollowUp env ws runId userRequest := by
    unfold startWorkflow
    rw [h]
    simp [hc]
  refine ⟨h1, ?_, rfl, rfl, rfl, rfl, rfl, rfl⟩
  intro hsteps
  rw [h1]
  unfold handleFollowUp
  rw [h, hsteps]
  simp [runNextPhase, wfLookup_wfInsert_self, followUpReentry,
    Phase.isWaiting, RunResult.noop]

/-- Witness for the amended C2 on the concrete completed workflow. -/
theorem startWorkflow_complete_follow_up_witness :
    startWorkflow callEnvEmpty wsComplete "r4" "make it shorter" =
      handleFollowUp callEnvEmpty wsComplete "r4" "make it shorter" ∧
    wfLookup (startWorkflow callEnvEmpty wsComplete "r4"
        "make it shorter").workflows "r4" =
      some (followUpReentry completeState0 "make it shorter"
        callEnvEmpty.meta) :=
  ⟨(startWorkflow_complete_follow_up callEnvEmpty wsComplete "r4"
      "make it shorter" completeState0 (by decide) rfl).1,
   (startWorkflow_complete_follow_up callEnvEmpty wsComplete "r4"
      "make it shorter" completeState0 (by decide) rfl).2.1 rfl⟩

/-- C6 counterexample: entering the image phase with a non-empty draft but
no `OPENAI_API_KEY` is one of the claim's failure modes, yet the handler
sends NO image-panel update at all — in particular no error-status update
— while still completing.  (The claim asserts the panel projection is set
to an error status in every failure mode.) -/
theorem image_missing_key_no_panel_cex :
    (runImagePhase imageEnvNoKey metaA imageState0).2 = [] ∧
    (runImagePhase imageEnvNoKey metaA imageState0).1.phase =
      Phase.complete := by
  decide

/-- C6 amended: image-generation failure never fails the workflow — the
phase always reaches `complete` with a human-readable degraded message
appended to the transcript.  When the API key is present and the
generation fails (HTTP error, missing image data, or thrown exception)
the image panel is set to `generating` and then to an error status; when
the API key is missing the handler returns before the panel is ever
touched, so no panel update (and no stale `generating` status) is sent. -/
theorem image_failure_completes (env : ImageEnv) (meta : MsgMeta)
    (state : WorkflowState)
    (hd : strTruthy (jsOrOpt state.finalDraft state.draft) = true) :
    (env.apiKey = none →
      (runImagePhase env meta state).1.phase = Phase.complete ∧
      (runImagePhase env meta state).2 = [] ∧
      (runImagePhase env meta state).1.messages =
        state.messages ++
          [{ id := meta.id, role := .agent,
             content := "✨ Done! Your post is ready. (Add OPENAI_API_KEY for image generation)",
             agentId := some .image, timestamp := meta.timestamp }]) ∧
    (∀ k, env.apiKey = some k → env.fetch.isFailure = true →
      (runImagePhase env meta state).1.phase = Phase.complete ∧
      (runImagePhase env meta state).2 =
        [{ runId := state.runId, data := { status := .generating } },
         { runId := state.runId, data := { status := .errorStatus } }] ∧
      (runImagePhase env meta state).1.messages =
        state.messages ++
          [{ id := meta.id, role := .agent,
             content := "✨ Done! Your post is ready. (Image generation failed - you can add one manually)",
             agentId := some .image, timestamp := meta.timestamp }]) := by
  constructor
  · intro hk
    refine ⟨?_, ?_, ?_⟩ <;> simp [runImagePhase, hd, hk, addMessage]
  · intro k hk hfail
    cases hfetch : env.fetch with
    | throwErr m =>
      refine ⟨?_, ?_, ?_⟩ <;>
        simp [runImagePhase, hd, hk, hfetch, addMessage]
    | notOk m =>
      refine ⟨?_, ?_, ?_⟩ <;>
        simp [runImagePhase, hd, hk, hfetch, addMessage]
    | okResp b64 rp =>
      rw [hfetch] at hfail
      cases b64 with
      | none =>
        refine ⟨?_, ?_, ?_⟩ <;>
          simp [runImagePhase, hd, hk, hfetch, addMessage]
      | some b =>
        have hb : b = "" := by
          by_contra hbne
          simp [ImageFetchResult.isFailure, strTruthy, hbne] at hfail
        subst hb
        refine ⟨?_, ?_, ?_⟩ <;>
          simp [runImagePhase, hd, hk, hfetch, addMessage]

/-- Witness for the amended C6: a failing fetch (HTTP 500) with a key
present completes the phase and sets the panel to the error status. -/
theorem image_failure_completes_witness :
    (runImagePhase { apiKey := some "sk", fetch := .notOk "500" } metaA
        imageState0).1.phase = Phase.complete ∧
    (runImagePhase { apiKey := some "sk", fetch := .notOk "500" } metaA
        imageState0).2 =
      [{ runId := "r2", data := { status := .generating } },
       { runId := "r2", data := { status := .errorStatus } }] :=
  ⟨((image_failure_completes { apiKey := some "sk", fetch := .notOk "500" }
      metaA imageState0 (by decide)).2 "sk" rfl (by decide)).1,
   ((image_failure_completes { apiKey := some "sk", fetch := .notOk "500" }
      metaA imageState0 (by decide)).2 "sk" rfl (by decide)).2.1⟩

/-! ### Invariant preservation of the phase handlers (for C1) -/

theorem runPlannerPhase_ok_inv (o : PlannerOutcome) (meta : MsgMeta)
    (st out : WorkflowState) (hpi : st.pendingInput = none)
    (h : runPlannerPhase o meta st = .ok out) : stateInv out := by
  cases o with
  | throwErr m => simp [runPlannerPhase] at h
  | finish qs plan =>
    simp only [runPlannerPhase] at h
    split at h
    · injection h with h2
      subst h2
      simp [stateInv, Phase.isWaiting]
    · cases plan with
      | some p =>
        simp only [] at h
        injection h with h2
        subst h2
        simp only [stateInv, Option.isSome_none]
        split
        · split <;> rfl
        · rfl
      | none =>
        injection h with h2
        subst h2
        simp [stateInv, hpi, Phase.isWaiting]

theorem runResearchPhase_ok_inv (o : ResearchOutcome) (meta : MsgMeta)
    (st out : WorkflowState) (_hpi : st.pendingInput = none)
    (h : runResearchPhase o meta st = .ok out) : stateInv out := by
  cases o with
  | throwErr m => simp [runResearchPhase] at h
  | finish d =>
    simp only [runResearchPhase] at h
    injection h with h2
    subst h2
    simp [stateInv, Phase.isWaiting]

theorem runPositioningPhase_ok_inv (o : PositioningOutcome) (meta : MsgMeta)
    (st out : WorkflowState) (hpi : st.pendingInput = none)
    (h : runPositioningPhase o meta st = .ok out) : stateInv out := by
  simp only [runPositioningPhase] at h
  split at h
  · injection h with h2
    subst h2
    simp [stateInv, Phase.isWaiting]
  · cases o with
    | throwErr m => simp at h
    | finish pos =>
      cases pos with
      | some p =>
        injection h with h2
        subst h2
        simp [stateInv, hpi, Phase.isWaiting]
      | none =>
        injection h with h2
        subst h2
        simp [stateInv, hpi, Phase.isWaiting]

theorem runDraftPhase_ok_inv (o : DraftOutcome) (meta : MsgMeta)
    (st out : WorkflowState) (hpi : st.pendingInput = none)
    (h : runDraftPhase o meta st = .ok out) : stateInv out := by
  cases o with
  | throwErr m => simp [runDraftPhase] at h
  | finish d =>
    simp only [runDraftPhase] at h
    split at h
    · injection h with h2
      subst h2
      simp [stateInv, hpi, Phase.isWaiting]
    · injection h with h2
      subst h2
      simp [stateInv, hpi, Phase.isWaiting]

theorem runCriticPhase_ok_inv (o : CriticOutcome) (meta : MsgMeta)
    (st out : WorkflowState) (hpi : st.pendingInput = none)
    (h : runCriticPhase o meta st = .ok out) : stateInv out := by
  simp only [runCriticPhase] at h
  split at h
  · injection h with h2
    subst h2
    simp only [stateInv, Option.isSome_none]
    split <;> rfl
  · split at h
    · injection h with h2
      subst h2
      simp [stateInv, hpi, Phase.isWaiting]
    · injection h with h2
      subst h2
      simp only [stateInv, Option.isSome_none]
      split <;> rfl

theorem runImagePhase_inv (env : ImageEnv) (meta : MsgMeta)
    (st : WorkflowState) (hpi : st.pendingInput = none) :
    stateInv (runImagePhase env meta st).1 := by
  cases h1 : strTruthy (jsOrOpt st.finalDraft st.draft) with
  | false => simp [runImagePhase, h1, stateInv, hpi, Phase.isWaiting]
  | true =>
    cases h2 : env.apiKey with
    | none => simp [runImagePhase, h1, h2, stateInv, hpi, Phase.isWaiting]
    | some k => simp [runImagePhase, h1, h2, stateInv, hpi, Phase.isWaiting]

theorem dispatchPhase_ok_inv (env : StepEnv) (st out : WorkflowState)
    (panels : List ImagePanelSend) (hpi : st.pendingInput = none)
    (h : dispatchPhase env st = some (.ok (out, panels))) : stateInv out := by
  unfold dispatchPhase at h
  cases hph : st.phase <;> rw [hph] at h
  case idle => simp at h
  case plannerWaiting => simp at h
  case researchWaiting => simp at h
  case criticWaiting => simp at h
  case complete => simp at h
  case error => simp at h
  case planner =>
    rw [Option.some_inj] at h
    cases hrun : runPlannerPhase env.plannerO env.meta st with
    | ok o2 =>
      rw [hrun] at h
      simp only [Except.map] at h
      injection h with h2
      have ho : o2 = out := congrArg Prod.fst h2
      exact runPlannerPhase_ok_inv _ _ st out hpi (ho ▸ hrun)
    | error m =>
      rw [hrun] at h
      simp [Except.map] at h
  case research =>
    rw [Option.some_inj] at h
    cases hrun : runResearchPhase env.researchO env.meta st with
    | ok o2 =>
      rw [hrun] at h
      simp only [Except.map] at h
      injection h with h2
      have ho : o2 = out := congrArg Prod.fst h2
      exact runResearchPhase_ok_inv _ _ st out hpi (ho ▸ hrun)
    | error m =>
      rw [hrun] at h
      simp [Except.map] at h
  case positioning =>
    rw [Option.some_inj] at h
    cases hrun : runPositioningPhase env.positioningO env.meta st with
    | ok o2 =>
      rw [hrun] at h
      simp only [Except.map] at h
      injection h with h2
      have ho : o2 = out := congrArg Prod.fst h2
      exact runPositioningPhase_ok_inv _ _ st out hpi (ho ▸ hrun)
    | error m =>
      rw [hrun] at h
      simp [Except.map] at h
  case draft =>
    rw [Option.some_inj] at h
    cases hrun : runDraftPhase env.draftO env.meta st with
    | ok o2 =>
      rw [hrun] at h
      simp only [Except.map] at h
      injection h with h2
      have ho : o2 = out := congrArg Prod.fst h2
      exact runDraftPhase_ok_inv _ _ st out hpi (ho ▸ hrun)
    | error m =>
      rw [hrun] at h
      simp [Except.map] at h
  case critic =>
    rw [Option.some_inj] at h
    cases hrun : runCriticPhase env.criticO env.meta st with
    | ok o2 =>
      rw [hrun] at h
      simp only [Except.map] at h
      injection h with h2
      have ho : o2 = out := congrArg Prod.fst h2
      exact runCriticPhase_ok_inv _ _ st out hpi (ho ▸ hrun)
    | error m =>
      rw [hrun] at h
      simp [Except.map] at h
  case image =>
    rw [Option.some_inj] at h
    injection h with h2
    have ho : (runImagePhase env.imageE env.meta st).1 = out :=
      congrArg Prod.fst h2
    exact ho ▸ runImagePhase_inv env.imageE env.meta st hpi

theorem WsInv_insert {ws : Workflows} {k : String} {v : WorkflowState}
    (hws : WsInv ws) (hv : stateInv v) : WsInv (wfInsert ws k v) := by
  intro k2 st h
  by_cases hk : k2 = k
  · subst hk
    rw [wfLookup_wfInsert_self] at h
    injection h with h2
    subst h2
    exact hv
  · rw [wfLookup_wfInsert_ne ws k k2 v hk] at h
    exact hws k2 st h

theorem runNextPhase_preserves (envs : List StepEnv) (ws : Workflows)
    (runId : String) (hws : WsInv ws) :
    WsInv (runNextPhase envs ws runId).workflows ∧
    ∀ st ∈ (runNextPhase envs ws runId).invoked, st.pendingInput = none := by
  induction envs generalizing ws with
  | nil =>
    unfold runNextPhase
    cases hlook : wfLookup ws runId with
    | none => exact ⟨hws, by simp [RunResult.noop]⟩
    | some state =>
      cases hpend : state.pendingInput with
      | some pi =>
        constructor
        · simpa [hpend, RunResult.noop] using hws
        · simp [hpend, RunResult.noop]
      | none =>
        cases hw : state.phase.isWaiting with
        | true =>
          constructor
          · simpa [hpend, hw, RunResult.noop] using hws
          · simp [hpend, hw, RunResult.noop]
        | false =>
          constructor
          · simpa [hpend, hw, RunResult.noop] using hws
          · simp [hpend, hw, RunResult.noop]
  | cons env rest ih =>
    unfold runNextPhase
    cases hlook : wfLookup ws runId with
    | none => exact ⟨hws, by simp [RunResult.noop]⟩
    | some state =>
      cases hpend : state.pendingInput with
      | some pi =>
        constructor
        · simpa [hpend, RunResult.noop] using hws
        · simp [hpend, RunResult.noop]
      | none =>
        cases hw : state.phase.isWaiting with
        | true =>
          constructor
          · simpa [hpend, hw, RunResult.noop] using hws
          · simp [hpend, hw, RunResult.noop]
        | false =>
          by_cases hc : state.phase = Phase.complete
          · constructor
            · simpa [hpend, hw, hc, Phase.isWaiting, RunResult.noop] using hws
            · simp [hpend, hw, hc, Phase.isWaiting, RunResult.noop]
          · by_cases he : state.phase = Phase.error
            · constructor
              · simpa [hpend, hw, hc, he, Phase.isWaiting, RunResult.noop] using hws
              · simp [hpend, hw, hc, he, Phase.isWaiting, RunResult.noop]
            · cases hdisp : dispatchPhase env state with
              | none =>
                constructor
                · simpa [hpend, hw, hc, he, hdisp, RunResult.noop] using hws
                · simp [hpend, hw, hc, he, hdisp, RunResult.noop]
              | some res =>
                cases res with
                | error msg =>
                  have hinv : stateInv
                      { state with phase := Phase.error, error := some msg } := by
                    simp [stateInv, hpend, Phase.isWaiting]
                  constructor
                  · simpa [hpend, hw, hc, he, hdisp] using WsInv_insert hws hinv
                  · intro st hst
                    simp [hpend, hw, hc, he, hdisp] at hst
                    subst hst
                    exact hpend
                | ok pair =>
                  obtain ⟨newState, phasePanels⟩ := pair
                  have hinv :=
                    dispatchPhase_ok_inv env state newState phasePanels hpend hdisp
                  have hih := ih (wfInsert ws runId newState) (WsInv_insert hws hinv)
                  constructor
                  · simpa [hpend, hw, hc, he, hdisp] using hih.1
                  · intro st hst
                    simp [hpend, hw, hc, he, hdisp] at hst
                    rcases hst with hst | hst
                    · subst hst
                      exact hpend
                    · exact hih.2 st hst

theorem handleFollowUp_preserves_inv (env : CallEnv) (ws : Workflows)
    (runId userRequest : String) (hws : WsInv ws) :
    WsInv (handleFollowUp env ws runId userRequest).workflows ∧
    ∀ st ∈ (handleFollowUp env ws runId userRequest).invoked,
      st.pendingInput = none := by
  unfold handleFollowUp
  cases hlook : wfLookup ws runId with
  | none => exact ⟨hws, by simp [RunResult.noop]⟩
  | some existing =>
    have hinv : stateInv (followUpReentry existing userRequest env.meta) := by
      simp [stateInv, followUpReentry, Phase.isWaiting]
    have h := runNextPhase_preserves env.steps
      (wfInsert ws runId (followUpReentry existing userRequest env.meta))
      runId (WsInv_insert hws hinv)
    constructor
    · simpa using h.1
    · intro st hst
      simp at hst
      exact h.2 st hst

theorem startWorkflow_preserves_inv (env : CallEnv) (ws : Workflows)
    (runId userRequest : String) (hws : WsInv ws) :
    WsInv (startWorkflow env ws runId userRequest).workflows ∧
    ∀ st ∈ (startWorkflow env ws runId userRequest).invoked,
      st.pendingInput = none := by
  have hfresh :
      WsInv (let state₀ := createInitialState runId userRequest
             let state := { state₀ with
               messages := state₀.messages ++ [userMessage env.meta userRequest] }
             let tail := runNextPhase env.steps (wfInsert ws runId state) runId
             ({ tail with
                events := mkEvent .phaseStart state env.evTime :: tail.events } :
              RunResult)).workflows ∧
      ∀ st ∈ (let state₀ := createInitialState runId userRequest
              let state := { state₀ with
                messages := state₀.messages ++ [userMessage env.meta userRequest] }
              let tail := runNextPhase env.steps (wfInsert ws runId state) runId
              ({ tail with
                 events := mkEvent .phaseStart state env.evTime :: tail.events } :
               RunResult)).invoked, st.pendingInput = none := by
    have hinv : stateInv
        { createInitialState runId userRequest with
          messages := (createInitialState runId userRequest).messages ++
            [userMessage env.meta userRequest] } := by
      simp [stateInv, createInitialState, Phase.isWaiting]
    have h := runNextPhase_preserves env.steps
      (wfInsert ws runId
        { createInitialState runId userRequest with
          messages := (createInitialState runId userRequest).messages ++
            [userMessage env.meta userRequest] })
      runId (WsInv_insert hws hinv)
    constructor
    · simpa using h.1
    · intro st hst
      simp at hst
      exact h.2 st hst
  unfold startWorkflow
  cases hlook : wfLookup ws runId with
  | none => exact hfresh
  | some existing =>
    by_cases hc : existing.phase = Phase.complete
    · simp only [hc, if_pos rfl]
      exact handleFollowUp_preserves_inv env ws runId userRequest hws
    · by_cases hp : existing.phase ≠ Phase.complete ∧ existing.phase ≠ Phase.error
      · simp only [if_neg hc, if_pos hp]
        exact ⟨hws, by simp [RunResult.noop]⟩
      · simp only [if_neg hc, if_neg hp]
        exact hfresh

theorem handleUserResponse_preserves_inv (env : CallEnv) (ws : Workflows)
    (runId : String) (response : UserInputResponse) (hws : WsInv ws) :
    WsInv (handleUserResponse env ws runId response).workflows ∧
    ∀ st ∈ (handleUserResponse env ws runId response).invoked,
      st.pendingInput = none := by
  unfold handleUserResponse
  cases hlook : wfLookup ws runId with
  | none => exact ⟨hws, by simp [RunResult.noop]⟩
  | some state =>
    by_cases hpi : state.pendingInput.isNone = true
    · simp only [hpi, if_pos rfl]
      exact ⟨hws, by simp [RunResult.noop]⟩
    · simp only [if_neg hpi]
      have hinv : stateInv (resolveResponse state response) := by
        cases ht : response.type <;>
          simp [resolveResponse, ht, stateInv, Phase.isWaiting]
      have h := runNextPhase_preserves env.steps
        (wfInsert ws runId (resolveResponse state response)) runId
        (WsInv_insert hws hinv)
      constructor
      · exact h.1
      · intro st hst
        exact h.2 st hst

theorem applyCommand_preserves (ws : Workflows) (c : Command) (hws : WsInv ws) :
    WsInv (applyCommand ws c).workflows ∧
    ∀ st ∈ (applyCommand ws c).invoked, st.pendingInput = none := by
  cases c with
  | start env runId userRequest =>
    exact startWorkflow_preserves_inv env ws runId userRequest hws
  | followUp env runId userRequest =>
    exact handleFollowUp_preserves_inv env ws runId userRequest hws
  | userResponse env runId response =>
    exact handleUserResponse_preserves_inv env ws runId response hws

/-- C1: for every reachable workflow state of the pipeline orchestrator —
produced by any sequence of `startWorkflow` / `handleFollowUp` /
`handleUserResponse` calls (each running its phase handlers) —
`pendingInput` is non-null exactly when the phase is one of the
`*_waiting` phases, and no phase handler is ever invoked on a state whose
`pendingInput` is set. -/
theorem pipeline_pendingInput_invariant (cs : List Command) :
    (∀ k st, wfLookup (execCommands cs) k = some st →
      (st.pendingInput.isSome = true ↔ st.phase.isWaiting = true)) ∧
    (∀ st ∈ invokedStates cs, st.pendingInput = none) := by
  have main : WsInv (execCommands cs) ∧
      ∀ st ∈ invokedStates cs, st.pendingInput = none := by
    induction cs with
    | nil =>
      constructor
      · intro k st h
        simp [execCommands, wfLookup] at h
      · simp [invokedStates]
    | cons c cs ih =>
      have h1 := applyCommand_preserves (execCommands cs) c ih.1
      constructor
      · exact h1.1
      · intro st hst
        rcases List.mem_append.mp hst with h | h
        · exact ih.2 st h
        · exact h1.2 st h
  refine ⟨fun k st h => ?_, main.2⟩
  have hs := main.1 k st h
  rw [stateInv] at hs
  rw [hs]

/-- Witness for C1: in a concrete run whose planner raises questions, the
only handler invocation is on the seeded initial state, whose
`pendingInput` is null. -/
theorem pipeline_pendingInput_invariant_witness :
    seedState0 ∈ invokedStates cmdsQuestions ∧
    seedState0.pendingInput = none :=
  ⟨by decide,
   (pipeline_pendingInput_invariant cmdsQuestions).2 seedState0 (by decide)⟩

end AgenticMarketer
